import Mathlib

/-!
Shallow embedding of `gyuho/http-manager` (`src/lib.rs`), a thin HTTP client
utility layer over hyper / reqwest / the `url` crate.

Modelling conventions:
* Rust `io::Error` becomes `IoError` (an `ErrorKind` plus the message string).
  The source always builds errors with `Error::new(ErrorKind::Other, msg)`,
  except where a library `From` conversion is invoked by `?` (see `send_req`).
* `url::Url` parsing and joining (an external collaborator, the `url` crate
  implementing the WHATWG URL standard) is embedded for the hierarchical
  `scheme://host:port/path` subset exercised by this repository: userinfo,
  IPv6 hosts, query/fragment splitting, percent-encoding, dot-segment
  normalization and non-authority schemes (e.g. `mailto:`) are outside the
  subset.  On the subset the model follows the crate: the scheme is
  lowercased, an empty path of an authority URL serializes as "/", a default
  port (http 80 / https 443) is dropped, an empty host is a parse error.
* Async I/O is embedded by passing the behaviour of the network (and, for
  `download_file`, of the file system) as an explicit oracle value; durations
  are `Nat`s in seconds.  `tokio::time::timeout d task` completes with the
  task's result when the task's running time is `≤ d`, and otherwise yields
  an `Elapsed` error after exactly `d` time units.
-/

deriving instance DecidableEq for Except

namespace HttpMan

/-- The subset of `std::io::ErrorKind` this library can produce.  `other`
is `ErrorKind::Other`; `timedOut` is `ErrorKind::TimedOut`, produced by
tokio's `From<Elapsed> for std::io::Error` conversion. -/
inductive ErrorKind where
  | other
  | timedOut
deriving DecidableEq, Repr

/-- Model of `std::io::Error`: a kind plus the human-readable message. -/
structure IoError where
  kind : ErrorKind
  msg : String
deriving DecidableEq, Repr

/-- Rust `str::starts_with` (byte/char prefix test on the raw string). -/
def strStartsWith (s pre : String) : Bool :=
  pre.toList.isPrefixOf s.toList

/-- Model of `url::Url` restricted to the hierarchical subset used here:
scheme, host, optional port, and an absolute path (always beginning "/"). -/
structure Url where
  scheme : String
  host : String
  port : Option Nat
  path : String
deriving DecidableEq, Repr

/-- Splits `scheme "://" rest` at the first colon, requiring it to be
followed by "//" (the authority form; non-authority URLs such as
`mailto:` are outside the modelled subset). -/
def splitAtSchemeSep : List Char → Option (List Char × List Char)
  | [] => none
  | ':' :: '/' :: '/' :: rest => some ([], rest)
  | ':' :: _ => none
  | c :: rest =>
    match splitAtSchemeSep rest with
    | none => none
    | some (sc, r) => some (c :: sc, r)

/-- Numeric value of a digit string (callers check `Char.isDigit` first). -/
def natOfDigits (cs : List Char) : Nat :=
  cs.foldl (fun acc c => acc * 10 + (c.toNat - 48)) 0

/-- Parses the `":" port` tail of an authority: absent or empty means no
explicit port; digits must fit in 16 bits; anything else is a parse error. -/
def parsePortPart : List Char → Option (Option Nat)
  | [] => some none
  | ':' :: rest =>
    if rest.isEmpty then some none
    else if rest.all Char.isDigit then
      let v := natOfDigits rest
      if v < 65536 then some (some v) else none
    else none
  | _ => none

/-- The scheme's default port, elided from a parsed `Url` (as the `url`
crate does): 80 for http, 443 for https. -/
def defaultPort (scheme : String) : Option Nat :=
  if scheme = "http" then some 80
  else if scheme = "https" then some 443
  else none

/-- `url::Url::parse` on the modelled subset.  The scheme must be nonempty
ASCII-alphabetic and is lowercased; the host must be nonempty; a missing
path component is normalized to "/". -/
def Url.parse (s : String) : Option Url :=
  match splitAtSchemeSep s.toList with
  | none => none
  | some (schemeCs, rest) =>
    if schemeCs.isEmpty then none
    else if ¬ schemeCs.all Char.isAlpha then none
    else
      let scheme := String.mk (schemeCs.map Char.toLower)
      let auth := rest.takeWhile (fun c => c != '/')
      let pathCs := rest.dropWhile (fun c => c != '/')
      let hostCs := auth.takeWhile (fun c => c != ':')
      if hostCs.isEmpty then none
      else
        match parsePortPart (auth.dropWhile (fun c => c != ':')) with
        | none => none
        | some p =>
          let port := if p = defaultPort scheme then none else p
          some { scheme := scheme, host := String.mk hostCs, port := port,
                 path := if pathCs.isEmpty then "/" else String.mk pathCs }

/-- The base's path with everything after the last '/' removed (the
directory against which a relative reference is resolved). -/
def dirOf (p : String) : String :=
  String.mk ((p.toList.reverse.dropWhile (fun c => c != '/')).reverse)

/-- `url::Url::join` (RFC 3986 relative resolution) on the modelled subset:
a reference with its own `scheme://` is parsed as absolute, a reference
beginning "/" replaces the base's path, and any other reference is resolved
against the base path's directory.  Callers pass a nonempty path. -/
def Url.join (u : Url) (path : String) : Option Url :=
  if (splitAtSchemeSep path.toList).isSome then Url.parse path
  else if strStartsWith path "/" then some { u with path := path }
  else some { u with path := dirOf u.path ++ path }

/-- Serialization (`Url::as_str` / `Display`): default ports are already
elided at parse time. -/
def Url.toString (u : Url) : String :=
  u.scheme ++ "://" ++ u.host ++
    (match u.port with
     | none => ""
     | some p => ":" ++ Nat.repr p) ++
    u.path

/-- `join_uri` from `src/lib.rs`: parse the base (error message prefix
"failed to parse client URL"), and join a nonempty path onto it (error
message prefix "failed to join parsed URL"); both errors use
`ErrorKind::Other`.  The underlying library error text appended by
`format!` is elided (the model's parser reports no text). -/
def join_uri (url path : String) : Except IoError Url :=
  match Url.parse url with
  | none => .error ⟨.other, "failed to parse client URL"⟩
  | some u =>
    if path.isEmpty then .ok u
    else
      match u.join path with
      | none => .error ⟨.other, "failed to join parsed URL"⟩
      | some v => .ok v

/-- HTTP method subset used by the library. -/
inductive Method where
  | get
  | post
deriving DecidableEq, Repr

/-- Model of a built `hyper::Request<Body>`: method, target URI (the
serialized joined URL), header list, and body bytes (as a string, as in
`Body::from(String)`). -/
structure Request where
  method : Method
  uri : String
  headers : List (String × String)
  body : String
deriving DecidableEq, Repr

/-- `create_get` from `src/lib.rs`: join the URL, then build a GET request
with no header and an empty body.  hyper's `Request::builder` error branch
(also `ErrorKind::Other`) is unreachable here: the method is a literal and
the URI is the serialization of a successfully parsed `Url`. -/
def create_get (url path : String) : Except IoError Request :=
  match join_uri url path with
  | .error e => .error e
  | .ok uri => .ok { method := .get, uri := uri.toString, headers := [], body := "" }

def JSON_CONTENT_TYPE : String := "application/json"

/-- `create_json_post` from `src/lib.rs`: join the URL, then build a POST
request with the JSON content-type header and the given body.  As in
`create_get`, the builder error branch is unreachable in the model. -/
def create_json_post (url path d : String) : Except IoError Request :=
  match join_uri url path with
  | .error e => .error e
  | .ok uri =>
      .ok { method := .post, uri := uri.toString,
            headers := [("content-type", JSON_CONTENT_TYPE)], body := d }

/-- `http::StatusCode::is_success`: the 2xx range. -/
def is_success (status : Nat) : Bool :=
  200 ≤ status && status < 300

/-- `http::StatusCode::is_server_error`: the 5xx range. -/
def is_server_error (status : Nat) : Bool :=
  500 ≤ status && status < 600

/-- `http::StatusCode::canonical_reason`, restricted to the codes this
development evaluates concretely; other codes take the crate's
`<unknown status code>` fallback of the `Display` impl. -/
def canonicalReason (status : Nat) : String :=
  if status = 200 then "OK"
  else if status = 404 then "Not Found"
  else if status = 500 then "Internal Server Error"
  else "<unknown status code>"

/-- `Display` of `http::StatusCode`: the numeric code and the reason. -/
def statusDisplay (status : Nat) : String :=
  Nat.repr status ++ " " ++ canonicalReason status

/-- The message `read_bytes` formats for a non-success status. -/
def unexpectedStatusMsg (status : Nat) : String :=
  "unexpected HTTP response code " ++ statusDisplay status ++
    " (server error " ++ (if is_server_error status then "true" else "false") ++ ")"

/-- `Display` text of `tokio::time::error::Elapsed`. -/
def elapsedDisplay : String := "deadline has elapsed"

/-- Behaviour of the server/network for the body phase of one exchange: how
long `hyper::body::to_bytes` runs, and whether it yields the body bytes or a
stream error (with hyper's error text). -/
structure HttpResp where
  status : Nat
  bodyTime : Nat
  bodyResult : Except String (List Nat)
deriving DecidableEq, Repr

/-- Behaviour of the network for the send phase of one exchange: how long
`client.request(req)` runs (connect + send + await response headers), and
whether it yields a response or a hyper error (with its text). -/
structure TransportBeh where
  reqTime : Nat
  reqResult : Except String HttpResp
deriving DecidableEq, Repr

/-- `send_req` from `src/lib.rs`: build a plain or TLS connector (with a
fixed 5-second connect timeout inside the request task, not separately
modelled), run `client.request(req)` under `timeout(timeout_dur, ·)`, and
return the elapsed time together with the result.  When the timeout
elapses, the `?` operator converts tokio's `Elapsed` into an `io::Error`
via `From<Elapsed> for std::io::Error`, i.e. `ErrorKind::TimedOut` with
message "timed out"; a hyper error inside the window is wrapped as
`ErrorKind::Other` with prefix "failed to fetch response". -/
def send_req (_req : Request) (timeout_dur : Nat) (_is_https : Bool)
    (beh : TransportBeh) : Nat × Except IoError HttpResp :=
  if beh.reqTime ≤ timeout_dur then
    match beh.reqResult with
    | .ok resp => (beh.reqTime, .ok resp)
    | .error e => (beh.reqTime, .error ⟨.other, "failed to fetch response " ++ e⟩)
  else
    (timeout_dur, .error ⟨.timedOut, "timed out"⟩)

/-- `read_bytes` from `src/lib.rs`: send via `send_req` under the overall
timeout; on a non-success status warn and, when `check_status_code`, fail
with the status message; then read the body under a second, fresh
`timeout(timeout_dur, ·)` and wrap both a stream error and an `Elapsed` of
that second window as `ErrorKind::Other` with prefix
"failed to read response".  Returns elapsed time and result. -/
def read_bytes (req : Request) (timeout_dur : Nat) (is_https : Bool)
    (check_status_code : Bool) (beh : TransportBeh) :
    Nat × Except IoError (List Nat) :=
  match send_req req timeout_dur is_https beh with
  | (t, .error e) => (t, .error e)
  | (t, .ok resp) =>
    if !is_success resp.status && check_status_code then
      (t, .error ⟨.other, unexpectedStatusMsg resp.status⟩)
    else if resp.bodyTime ≤ timeout_dur then
      match resp.bodyResult with
      | .ok b => (t + resp.bodyTime, .ok b)
      | .error e => (t + resp.bodyTime, .error ⟨.other, "failed to read response " ++ e⟩)
    else
      (t + timeout_dur, .error ⟨.other, "failed to read response " ++ elapsedDisplay⟩)

/-- Configuration of the reqwest client built by the insecure branch of
`get_non_tls` / `post_non_tls`. -/
structure ReqwestConfig where
  danger_accept_invalid_certs : Bool
  timeout : Nat
deriving DecidableEq, Repr

/-- Which transport a convenience call used: the reqwest client with the
given configuration, or the `create_get`/`create_json_post` + `read_bytes`
path with the given timeout, `is_https` flag and status-check flag. -/
inductive Transport where
  | insecureReqwest (cfg : ReqwestConfig)
  | hyperExecutor (timeout_dur : Nat) (is_https : Bool) (check_status_code : Bool)
deriving DecidableEq, Repr

/-- Behaviour of the reqwest path: outcomes of `ClientBuilder::build`, of
`send()`, and of `bytes()` (each with the library's error text). -/
structure ReqwestBeh where
  buildResult : Except String Unit
  sendResult : Except String Unit
  bytesResult : Except String (List Nat)
deriving DecidableEq, Repr

/-- Combined network behaviour for a convenience call: the reqwest path's
outcomes and the hyper transport's behaviour. -/
structure WebBeh where
  reqwest : ReqwestBeh
  transport : TransportBeh
deriving DecidableEq, Repr

/-- `get_non_tls` from `src/lib.rs`, additionally recording which transport
was used.  The joined URL is computed first (its failure aborts the call);
then, when the raw `url` string starts with "https", a reqwest client with
`danger_accept_invalid_certs(true)` and a 15-second timeout fetches the
bytes; otherwise `create_get` + `read_bytes` runs with a 15-second timeout,
`url.starts_with("https")` as the `is_https` flag, and status checking
disabled. -/
def get_non_tls (url url_path : String) (beh : WebBeh) :
    Except IoError (Transport × List Nat) :=
  match join_uri url url_path with
  | .error e => .error e
  | .ok _joined =>
    if strStartsWith url "https" then
      match beh.reqwest.buildResult with
      | .error e => .error ⟨.other, "failed ClientBuilder build " ++ e⟩
      | .ok _ =>
        match beh.reqwest.sendResult with
        | .error e => .error ⟨.other, "failed ClientBuilder send " ++ e⟩
        | .ok _ =>
          match beh.reqwest.bytesResult with
          | .error e => .error ⟨.other, "failed ClientBuilder send " ++ e⟩
          | .ok out => .ok (.insecureReqwest ⟨true, 15⟩, out)
    else
      match create_get url url_path with
      | .error e => .error e
      | .ok req =>
        match read_bytes req 15 (strStartsWith url "https") false beh.transport with
        | (_, .error e) => .error e
        | (_, .ok buf) => .ok (.hyperExecutor 15 (strStartsWith url "https") false, buf)

/-- `post_non_tls` from `src/lib.rs`, analogous to `get_non_tls`: the same
prefix test selects the insecure reqwest client (posting `data` with the
JSON content-type) or `create_json_post` + `read_bytes` with a 15-second
timeout, `is_https := false` (a literal in the source) and status checking
disabled. -/
def post_non_tls (url url_path _data : String) (beh : WebBeh) :
    Except IoError (Transport × List Nat) :=
  match join_uri url url_path with
  | .error e => .error e
  | .ok _joined =>
    if strStartsWith url "https" then
      match beh.reqwest.buildResult with
      | .error e => .error ⟨.other, "failed ClientBuilder build " ++ e⟩
      | .ok _ =>
        match beh.reqwest.sendResult with
        | .error e => .error ⟨.other, "failed ClientBuilder send " ++ e⟩
        | .ok _ =>
          match beh.reqwest.bytesResult with
          | .error e => .error ⟨.other, "failed ClientBuilder send " ++ e⟩
          | .ok out => .ok (.insecureReqwest ⟨true, 15⟩, out)
    else
      match create_json_post url url_path _data with
      | .error e => .error e
      | .ok req =>
        match read_bytes req 15 false false beh.transport with
        | (_, .error e) => .error e
        | (_, .ok buf) => .ok (.hyperExecutor 15 false false, buf)

/-- Behaviour of the network and file system for one `download_file` call:
outcomes of `reqwest::get`, of `resp.bytes()`, of `File::create` (whose
`io::Error` is propagated unchanged by `?`), and of `copy` (on failure,
the bytes already written before the error, plus the error). -/
structure DlBeh where
  getResult : Except String Unit
  bytesResult : Except String (List Nat)
  createResult : Except IoError Unit
  copyResult : Except (List Nat × IoError) Unit
deriving DecidableEq, Repr

/-- `download_file` from `src/lib.rs`: GET the endpoint with reqwest (no
custom timeout, no status check), buffer the body, create the local file
and copy the buffer into it.  The first component is the content of the
file at `file_path` after the call (`none` when it was never created);
nothing removes a partially written file on failure. -/
def download_file (_ep _file_path : String) (beh : DlBeh) :
    Option (List Nat) × Except IoError Unit :=
  match beh.getResult with
  | .error e => (none, .error ⟨.other, "failed reqwest::get " ++ e⟩)
  | .ok _ =>
    match beh.bytesResult with
    | .error e => (none, .error ⟨.other, "failed bytes " ++ e⟩)
    | .ok content =>
      match beh.createResult with
      | .error e => (none, .error e)
      | .ok _ =>
        match beh.copyResult with
        | .error we => (some we.1, .error we.2)
        | .ok _ => (some content, .ok ())

/-! ## Inversion helpers -/

/-- A successful `read_bytes` means the send phase finished inside its
window, the response's body was delivered inside the (fresh) body window,
and the returned bytes are the response's bytes. -/
theorem read_bytes_ok_inversion (req : Request) (T : Nat) (https chk : Bool)
    (beh : TransportBeh) (t : Nat) (b : List Nat)
    (h : read_bytes req T https chk beh = (t, .ok b)) :
    beh.reqTime ≤ T ∧
      ∃ resp, beh.reqResult = .ok resp ∧ resp.bodyTime ≤ T ∧
        resp.bodyResult = .ok b ∧ t = beh.reqTime + resp.bodyTime := by
  unfold read_bytes send_req at h
  by_cases ht : beh.reqTime ≤ T
  · rw [if_pos ht] at h
    cases hr : beh.reqResult with
    | error e =>
      rw [hr] at h
      dsimp only at h
      injection h with h1 h2
      exact Except.noConfusion h2
    | ok resp =>
      rw [hr] at h
      dsimp only at h
      by_cases hc : (!is_success resp.status && chk) = true
      · rw [if_pos hc] at h
        injection h with h1 h2
        exact Except.noConfusion h2
      · rw [if_neg hc] at h
        by_cases hbt : resp.bodyTime ≤ T
        · rw [if_pos hbt] at h
          cases hbr : resp.bodyResult with
          | error e =>
            rw [hbr] at h
            dsimp only at h
            injection h with h1 h2
            exact Except.noConfusion h2
          | ok b' =>
            rw [hbr] at h
            dsimp only at h
            injection h with h1 h2
            injection h2 with h3
            exact ⟨ht, resp, rfl, hbt, by rw [hbr, h3], h1.symm⟩
        · rw [if_neg hbt] at h
          injection h with h1 h2
          exact Except.noConfusion h2
  · rw [if_neg ht] at h
    dsimp only at h
    injection h with h1 h2
    exact Except.noConfusion h2

/-- A successful `get_non_tls` either took the insecure reqwest branch
(when the raw url starts with "https") or the hyper executor branch. -/
theorem get_non_tls_ok_inversion (url url_path : String) (beh : WebBeh)
    (tr : Transport) (out : List Nat)
    (h : get_non_tls url url_path beh = .ok (tr, out)) :
    (strStartsWith url "https" = true ∧ tr = .insecureReqwest ⟨true, 15⟩ ∧
      beh.reqwest.bytesResult = .ok out) ∨
    (strStartsWith url "https" = false ∧ tr = .hyperExecutor 15 false false ∧
      ∃ resp, beh.transport.reqResult = .ok resp ∧ resp.bodyResult = .ok out) := by
  unfold get_non_tls at h
  cases hj : join_uri url url_path with
  | error e => rw [hj] at h; exact Except.noConfusion h
  | ok joined =>
    rw [hj] at h
    dsimp only at h
    by_cases hhttps : strStartsWith url "https" = true
    · rw [if_pos hhttps] at h
      left
      cases hb : beh.reqwest.buildResult with
      | error e => rw [hb] at h; exact Except.noConfusion h
      | ok u1 =>
        rw [hb] at h
        dsimp only at h
        cases hs : beh.reqwest.sendResult with
        | error e => rw [hs] at h; exact Except.noConfusion h
        | ok u2 =>
          rw [hs] at h
          dsimp only at h
          cases hby : beh.reqwest.bytesResult with
          | error e => rw [hby] at h; exact Except.noConfusion h
          | ok o =>
            rw [hby] at h
            dsimp only at h
            injection h with h1
            injection h1 with h2 h3
            exact ⟨hhttps, h2.symm, by rw [h3]⟩
    · rw [if_neg hhttps] at h
      right
      rw [Bool.not_eq_true] at hhttps
      rw [hhttps] at h
      refine ⟨hhttps, ?_⟩
      cases hc : create_get url url_path with
      | error e => rw [hc] at h; exact Except.noConfusion h
      | ok req =>
        rw [hc] at h
        dsimp only at h
        rcases hrb : read_bytes req 15 false false beh.transport with ⟨t, r⟩
        rw [hrb] at h
        cases r with
        | error e => exact Except.noConfusion h
        | ok buf =>
          injection h with h1
          injection h1 with h2 h3
          obtain ⟨-, resp, hresp, -, hbody, -⟩ :=
            read_bytes_ok_inversion req 15 false false beh.transport t buf hrb
          exact ⟨h2.symm, resp, hresp, by rw [hbody, h3]⟩

/-- A successful `post_non_tls` either took the insecure reqwest branch
(when the raw url starts with "https") or the hyper executor branch. -/
theorem post_non_tls_ok_inversion (url url_path d : String) (beh : WebBeh)
    (tr : Transport) (out : List Nat)
    (h : post_non_tls url url_path d beh = .ok (tr, out)) :
    (strStartsWith url "https" = true ∧ tr = .insecureReqwest ⟨true, 15⟩ ∧
      beh.reqwest.bytesResult = .ok out) ∨
    (strStartsWith url "https" = false ∧ tr = .hyperExecutor 15 false false ∧
      ∃ resp, beh.transport.reqResult = .ok resp ∧ resp.bodyResult = .ok out) := by
  unfold post_non_tls at h
  cases hj : join_uri url url_path with
  | error e => rw [hj] at h; exact Except.noConfusion h
  | ok joined =>
    rw [hj] at h
    dsimp only at h
    by_cases hhttps : strStartsWith url "https" = true
    · rw [if_pos hhttps] at h
      left
      cases hb : beh.reqwest.buildResult with
      | error e => rw [hb] at h; exact Except.noConfusion h
      | ok u1 =>
        rw [hb] at h
        dsimp only at h
        cases hs : beh.reqwest.sendResult with
        | error e => rw [hs] at h; exact Except.noConfusion h
        | ok u2 =>
          rw [hs] at h
          dsimp only at h
          cases hby : beh.reqwest.bytesResult with
          | error e => rw [hby] at h; exact Except.noConfusion h
          | ok o =>
            rw [hby] at h
            dsimp only at h
            injection h with h1
            injection h1 with h2 h3
            exact ⟨hhttps, h2.symm, by rw [h3]⟩
    · rw [if_neg hhttps] at h
      right
      rw [Bool.not_eq_true] at hhttps
      refine ⟨hhttps, ?_⟩
      cases hc : create_json_post url url_path d with
      | error e => rw [hc] at h; exact Except.noConfusion h
      | ok req =>
        rw [hc] at h
        dsimp only at h
        rcases hrb : read_bytes req 15 false false beh.transport with ⟨t, r⟩
        rw [hrb] at h
        cases r with
        | error e => exact Except.noConfusion h
        | ok buf =>
          injection h with h1
          injection h1 with h2 h3
          obtain ⟨-, resp, hresp, -, hbody, -⟩ :=
            read_bytes_ok_inversion req 15 false false beh.transport t buf hrb
          exact ⟨h2.symm, resp, hresp, by rw [hbody, h3]⟩

/-! ## Claims -/

/-- C1: for the four combinations of base "http://host:9850/" or
"http://host:9850" with path "/ext/X" or "ext/X", `join_uri` succeeds and
returns the identical absolute URL, serializing as
"http://host:9850/ext/X", in all four cases. -/
theorem join_uri_normalization :
    join_uri "http://host:9850/" "/ext/X" = .ok ⟨"http", "host", some 9850, "/ext/X"⟩ ∧
    join_uri "http://host:9850" "/ext/X" = .ok ⟨"http", "host", some 9850, "/ext/X"⟩ ∧
    join_uri "http://host:9850/" "ext/X" = .ok ⟨"http", "host", some 9850, "/ext/X"⟩ ∧
    join_uri "http://host:9850" "ext/X" = .ok ⟨"http", "host", some 9850, "/ext/X"⟩ ∧
    Url.toString ⟨"http", "host", some 9850, "/ext/X"⟩ = "http://host:9850/ext/X" :=
  ⟨rfl, rfl, rfl, rfl, rfl⟩

/-- C5: for every base URL string that parses, `join_uri` with the empty
path returns the parsed base URL unchanged. -/
theorem join_uri_empty_path (url : String) (u : Url) (h : Url.parse url = some u) :
    join_uri url "" = .ok u := by
  unfold join_uri
  rw [h]
  rfl

/-- Witness for C5 at base "http://host:9850". -/
theorem join_uri_empty_path_witness :
    join_uri "http://host:9850" "" = .ok ⟨"http", "host", some 9850, "/"⟩ :=
  join_uri_empty_path "http://host:9850" ⟨"http", "host", some 9850, "/"⟩ rfl

/-- C6: `join_uri` fails with the parse-error message (the realization of
the spec's `UrlParseError` category; the `io` kind is `Other`, see C10)
exactly when the base does not parse; fails with the join-error message
(`UrlJoinError`) exactly when the base parses but joining the nonempty
path is invalid; and succeeds in all other cases. -/
theorem join_uri_error_taxonomy (url path : String) :
    (Url.parse url = none →
      join_uri url path = .error ⟨.other, "failed to parse client URL"⟩) ∧
    (∀ u, Url.parse url = some u → path.isEmpty = false → Url.join u path = none →
      join_uri url path = .error ⟨.other, "failed to join parsed URL"⟩) ∧
    (∀ u, Url.parse url = some u → path.isEmpty = true → join_uri url path = .ok u) ∧
    (∀ u v, Url.parse url = some u → path.isEmpty = false → Url.join u path = some v →
      join_uri url path = .ok v) := by
  refine ⟨?_, ?_, ?_, ?_⟩
  · intro h
    unfold join_uri
    rw [h]
  · intro u hu hp hj
    unfold join_uri
    rw [hu]
    simp [hp, hj]
  · intro u hu hp
    unfold join_uri
    rw [hu]
    simp [hp]
  · intro u v hu hp hj
    unfold join_uri
    rw [hu]
    simp [hp, hj]

/-- Witness for C6: a base with no scheme yields the parse error, joining
the reference "http://" (empty host) yields the join error, and a plain
relative path succeeds. -/
theorem join_uri_error_taxonomy_witness :
    join_uri "ext/X" "p" = .error ⟨.other, "failed to parse client URL"⟩ ∧
    join_uri "http://host:9850" "http://" = .error ⟨.other, "failed to join parsed URL"⟩ ∧
    join_uri "http://host:9850" "ext/X" = .ok ⟨"http", "host", some 9850, "/ext/X"⟩ :=
  ⟨(join_uri_error_taxonomy "ext/X" "p").1 rfl,
   (join_uri_error_taxonomy "http://host:9850" "http://").2.1
     ⟨"http", "host", some 9850, "/"⟩ rfl rfl rfl,
   (join_uri_error_taxonomy "http://host:9850" "ext/X").2.2.2
     ⟨"http", "host", some 9850, "/"⟩ ⟨"http", "host", some 9850, "/ext/X"⟩ rfl rfl rfl⟩

/-- C7: when joining succeeds, `create_json_post` returns a POST request
targeting the joined URL with the JSON content-type header and the given
body; when joining fails, it propagates that error. -/
theorem create_json_post_spec (url path d : String) :
    (∀ u, join_uri url path = .ok u →
      create_json_post url path d =
        .ok { method := .post, uri := u.toString,
              headers := [("content-type", JSON_CONTENT_TYPE)], body := d }) ∧
    (∀ e, join_uri url path = .error e → create_json_post url path d = .error e) := by
  constructor
  · intro u h
    unfold create_json_post
    rw [h]
  · intro e h
    unfold create_json_post
    rw [h]

/-- Witness for C7: a successful build and a propagated join failure. -/
theorem create_json_post_spec_witness :
    create_json_post "http://host:9850" "ext/X" "d" =
      .ok ⟨.post, "http://host:9850/ext/X", [("content-type", JSON_CONTENT_TYPE)], "d"⟩ ∧
    create_json_post "ext/X" "p" "d" = .error ⟨.other, "failed to parse client URL"⟩ :=
  ⟨(create_json_post_spec "http://host:9850" "ext/X" "d").1
     ⟨"http", "host", some 9850, "/ext/X"⟩ rfl,
   (create_json_post_spec "ext/X" "p" "d").2 ⟨.other, "failed to parse client URL"⟩ rfl⟩

/-- C2 (counterexample): the claim that connect, send and body-read share
one budget `T` measured from call start is false: with `T = 10`, a response
arriving at time 10 and a body taking 10 more units, `read_bytes` succeeds
at wall time 20; and with the body stalling past its window, the timeout
failure is reported only at wall time 20 = 2×T, which is not ≤ T. -/
theorem read_bytes_single_budget_counterexample :
    read_bytes ⟨.get, "http://host:9850/ext/X", [], ""⟩ 10 false true
        ⟨10, .ok ⟨200, 10, .ok [1]⟩⟩ = (20, .ok [1]) ∧
    (read_bytes ⟨.get, "http://host:9850/ext/X", [], ""⟩ 10 false true
        ⟨10, .ok ⟨200, 11, .error "stream closed"⟩⟩).1 = 20 ∧
    ¬ (20 ≤ 10) :=
  ⟨rfl, rfl, by omega⟩

/-- C2 (amended): the send/await-response phase is bounded by the overall
timeout `T`, and the body-read phase is bounded by a separate, fresh budget
of `T` starting when the response arrived; hence the total wall time is
bounded by 2×T (not by T), and a success means each phase separately fit
inside `T`. -/
theorem read_bytes_timeout_budgets (req : Request) (T : Nat) (https chk : Bool)
    (beh : TransportBeh) :
    (read_bytes req T https chk beh).1 ≤ 2 * T ∧
    (∀ t b, read_bytes req T https chk beh = (t, .ok b) →
      beh.reqTime ≤ T ∧ ∃ resp, beh.reqResult = .ok resp ∧ resp.bodyTime ≤ T) := by
  constructor
  · unfold read_bytes send_req
    by_cases ht : beh.reqTime ≤ T
    · rw [if_pos ht]
      cases hr : beh.reqResult with
      | error e => dsimp only; omega
      | ok resp =>
        dsimp only
        by_cases hc : (!is_success resp.status && chk) = true
        · rw [if_pos hc]; dsimp only; omega
        · rw [if_neg hc]
          by_cases hbt : resp.bodyTime ≤ T
          · rw [if_pos hbt]
            cases hbr : resp.bodyResult with
            | ok b => dsimp only; omega
            | error e => dsimp only; omega
          · rw [if_neg hbt]; dsimp only; omega
    · rw [if_neg ht]; dsimp only; omega
  · intro t b h
    obtain ⟨ht, resp, hr, hbt, -, -⟩ := read_bytes_ok_inversion req T https chk beh t b h
    exact ⟨ht, resp, hr, hbt⟩

/-- Witness for the amended C2 at a run that uses both full budgets. -/
theorem read_bytes_timeout_budgets_witness :
    (read_bytes ⟨.get, "http://host:9850/ext/X", [], ""⟩ 10 false false
        ⟨10, .ok ⟨200, 10, .ok [1]⟩⟩).1 ≤ 2 * 10 ∧
    ((TransportBeh.mk 10 (.ok ⟨200, 10, .ok [1]⟩)).reqTime ≤ 10 ∧
      ∃ resp, (TransportBeh.mk 10 (.ok ⟨200, 10, .ok [1]⟩)).reqResult = .ok resp ∧
        resp.bodyTime ≤ 10) :=
  ⟨(read_bytes_timeout_budgets ⟨.get, "http://host:9850/ext/X", [], ""⟩ 10 false false
      ⟨10, .ok ⟨200, 10, .ok [1]⟩⟩).1,
   (read_bytes_timeout_budgets ⟨.get, "http://host:9850/ext/X", [], ""⟩ 10 false false
      ⟨10, .ok ⟨200, 10, .ok [1]⟩⟩).2 20 [1] rfl⟩

/-- C3: for a response with a non-2xx status delivered inside the timeout
windows, `read_bytes` with status checking enabled fails with the message
carrying the numeric status and the server-error flag (with `ErrorKind
Other`, see C10), and with checking disabled succeeds with the (possibly
empty) body bytes. -/
theorem read_bytes_status_toggle (req : Request) (T : Nat) (https : Bool)
    (beh : TransportBeh) (resp : HttpResp) (b : List Nat)
    (hr : beh.reqResult = .ok resp) (ht : beh.reqTime ≤ T)
    (hs : is_success resp.status = false)
    (hb : resp.bodyResult = .ok b) (hbt : resp.bodyTime ≤ T) :
    (read_bytes req T https true beh).2 =
      .error ⟨.other, unexpectedStatusMsg resp.status⟩ ∧
    unexpectedStatusMsg resp.status =
      "unexpected HTTP response code " ++ statusDisplay resp.status ++
        " (server error " ++
        (if is_server_error resp.status then "true" else "false") ++ ")" ∧
    (read_bytes req T https false beh).2 = .ok b := by
  refine ⟨?_, rfl, ?_⟩
  · unfold read_bytes send_req
    rw [if_pos ht, hr]
    dsimp only
    rw [hs]
    rfl
  · unfold read_bytes send_req
    rw [if_pos ht, hr]
    dsimp only
    rw [hs]
    simp [hbt, hb]

/-- Witness for C3 at a mocked 500 response with an empty body. -/
theorem read_bytes_status_toggle_witness :
    (read_bytes ⟨.get, "http://host:9850/ext/X", [], ""⟩ 15 false true
        ⟨1, .ok ⟨500, 1, .ok []⟩⟩).2 = .error ⟨.other, unexpectedStatusMsg 500⟩ ∧
    unexpectedStatusMsg 500 =
      "unexpected HTTP response code " ++ statusDisplay 500 ++ " (server error " ++
        (if is_server_error 500 then "true" else "false") ++ ")" ∧
    (read_bytes ⟨.get, "http://host:9850/ext/X", [], ""⟩ 15 false false
        ⟨1, .ok ⟨500, 1, .ok []⟩⟩).2 = .ok [] :=
  read_bytes_status_toggle ⟨.get, "http://host:9850/ext/X", [], ""⟩ 15 false
    ⟨1, .ok ⟨500, 1, .ok []⟩⟩ ⟨500, 1, .ok []⟩ [] rfl (by decide) rfl rfl (by decide)

/-- C4 (counterexample): the branch is not selected by the parsed scheme.
The url "httpsx://host/" parses with scheme "httpsx", which is not HTTPS,
yet `get_non_tls` serves it through the insecure certificate-skipping
reqwest client instead of delegating to the builder + executor path. -/
theorem get_non_tls_scheme_counterexample :
    get_non_tls "httpsx://host/" "" ⟨⟨.ok (), .ok (), .ok [7]⟩, ⟨0, .error ""⟩⟩ =
      .ok (.insecureReqwest ⟨true, 15⟩, [7]) ∧
    Url.parse "httpsx://host/" = some ⟨"httpsx", "host", none, "/"⟩ ∧
    "httpsx" ≠ "https" :=
  ⟨rfl, rfl, by decide⟩

/-- C4 (amended): `get_non_tls` / `post_non_tls` select the insecure
branch when the raw url string starts with "https" (a string-prefix test,
not the parsed scheme): then the reqwest client skips certificate
validation with a fixed 15-second timeout and its bytes are returned;
otherwise the request-builder + executor path runs with a 15-second
timeout and status checking disabled, returning the response's bytes. -/
theorem non_tls_transport_selection (url url_path d : String) (beh : WebBeh) :
    (strStartsWith url "https" = true →
      (∀ tr out, get_non_tls url url_path beh = .ok (tr, out) →
        tr = .insecureReqwest ⟨true, 15⟩ ∧ beh.reqwest.bytesResult = .ok out) ∧
      (∀ tr out, post_non_tls url url_path d beh = .ok (tr, out) →
        tr = .insecureReqwest ⟨true, 15⟩ ∧ beh.reqwest.bytesResult = .ok out)) ∧
    (strStartsWith url "https" = false →
      (∀ tr out, get_non_tls url url_path beh = .ok (tr, out) →
        tr = .hyperExecutor 15 false false ∧
          ∃ resp, beh.transport.reqResult = .ok resp ∧ resp.bodyResult = .ok out) ∧
      (∀ tr out, post_non_tls url url_path d beh = .ok (tr, out) →
        tr = .hyperExecutor 15 false false ∧
          ∃ resp, beh.transport.reqResult = .ok resp ∧ resp.bodyResult = .ok out)) := by
  constructor
  · intro hp
    constructor
    · intro tr out h
      rcases get_non_tls_ok_inversion url url_path beh tr out h with
        ⟨-, h2, h3⟩ | ⟨hf, -, -⟩
      · exact ⟨h2, h3⟩
      · rw [hp] at hf; exact Bool.noConfusion hf
    · intro tr out h
      rcases post_non_tls_ok_inversion url url_path d beh tr out h with
        ⟨-, h2, h3⟩ | ⟨hf, -, -⟩
      · exact ⟨h2, h3⟩
      · rw [hp] at hf; exact Bool.noConfusion hf
  · intro hp
    constructor
    · intro tr out h
      rcases get_non_tls_ok_inversion url url_path beh tr out h with
        ⟨hf, -, -⟩ | ⟨-, h2, h3⟩
      · rw [hp] at hf; exact Bool.noConfusion hf
      · exact ⟨h2, h3⟩
    · intro tr out h
      rcases post_non_tls_ok_inversion url url_path d beh tr out h with
        ⟨hf, -, -⟩ | ⟨-, h2, h3⟩
      · rw [hp] at hf; exact Bool.noConfusion hf
      · exact ⟨h2, h3⟩

/-- Witness for the amended C4: one https call through the insecure
client, one http call through the executor path. -/
theorem non_tls_transport_selection_witness :
    (Transport.insecureReqwest ⟨true, 15⟩ = Transport.insecureReqwest ⟨true, 15⟩ ∧
      (ReqwestBeh.mk (.ok ()) (.ok ()) (.ok [7])).bytesResult = .ok [7]) ∧
    (Transport.hyperExecutor 15 false false = Transport.hyperExecutor 15 false false ∧
      ∃ resp, (TransportBeh.mk 1 (.ok ⟨200, 1, .ok [9]⟩)).reqResult = .ok resp ∧
        resp.bodyResult = .ok [9]) :=
  ⟨((non_tls_transport_selection "https://host/" "" "d"
      ⟨⟨.ok (), .ok (), .ok [7]⟩, ⟨0, .error ""⟩⟩).1 rfl).1
      (.insecureReqwest ⟨true, 15⟩) [7] rfl,
   ((non_tls_transport_selection "http://host:9850" "ext/X" "d"
      ⟨⟨.ok (), .ok (), .ok [7]⟩, ⟨1, .ok ⟨200, 1, .ok [9]⟩⟩⟩).2 rfl).1
      (.hyperExecutor 15 false false) [9] rfl⟩

/-- C9: a successful `get_non_tls` / `post_non_tls` used the insecure
certificate-skipping branch exactly when the raw input url string starts
with the prefix "https" — an unparsed-string test, so the url
"httpsx://host/", whose parsed scheme "httpsx" is not HTTPS, still takes
the insecure branch. -/
theorem non_tls_prefix_branch (url url_path d : String) (beh : WebBeh) :
    (∀ tr out, get_non_tls url url_path beh = .ok (tr, out) →
      ((∃ cfg, tr = Transport.insecureReqwest cfg) ↔
        strStartsWith url "https" = true)) ∧
    (∀ tr out, post_non_tls url url_path d beh = .ok (tr, out) →
      ((∃ cfg, tr = Transport.insecureReqwest cfg) ↔
        strStartsWith url "https" = true)) ∧
    (get_non_tls "httpsx://host/" "x" ⟨⟨.ok (), .ok (), .ok [3]⟩, ⟨0, .error ""⟩⟩ =
        .ok (.insecureReqwest ⟨true, 15⟩, [3]) ∧
      Url.parse "httpsx://host/" = some ⟨"httpsx", "host", none, "/"⟩ ∧
      "httpsx" ≠ "https") := by
  refine ⟨?_, ?_, rfl, rfl, by decide⟩
  · intro tr out h
    rcases get_non_tls_ok_inversion url url_path beh tr out h with
      ⟨hp, h2, -⟩ | ⟨hf, h2, -⟩
    · exact ⟨fun _ => hp, fun _ => ⟨⟨true, 15⟩, h2⟩⟩
    · constructor
      · rintro ⟨cfg, hcfg⟩
        rw [h2] at hcfg
        exact Transport.noConfusion hcfg
      · intro hp; rw [hp] at hf; exact Bool.noConfusion hf
  · intro tr out h
    rcases post_non_tls_ok_inversion url url_path d beh tr out h with
      ⟨hp, h2, -⟩ | ⟨hf, h2, -⟩
    · exact ⟨fun _ => hp, fun _ => ⟨⟨true, 15⟩, h2⟩⟩
    · constructor
      · rintro ⟨cfg, hcfg⟩
        rw [h2] at hcfg
        exact Transport.noConfusion hcfg
      · intro hp; rw [hp] at hf; exact Bool.noConfusion hf

/-- Witness for C9 at a successful https call. -/
theorem non_tls_prefix_branch_witness :
    (∃ cfg, Transport.insecureReqwest ⟨true, 15⟩ = Transport.insecureReqwest cfg) ↔
      strStartsWith "https://host/" "https" = true :=
  (non_tls_prefix_branch "https://host/" "" "d"
    ⟨⟨.ok (), .ok (), .ok [7]⟩, ⟨0, .error ""⟩⟩).1
    (.insecureReqwest ⟨true, 15⟩) [7] rfl

/-- C8: when all four steps succeed, `download_file` leaves the file at
the given path with contents byte-identical to the served body; a network
failure, a bytes failure or a file-creation failure returns the error with
no file created; a copy failure returns the error and leaves the
partially written file in place (it is not removed). -/
theorem download_file_spec (ep fp : String) (beh : DlBeh) (content : List Nat) :
    (beh.getResult = .ok () → beh.bytesResult = .ok content →
      beh.createResult = .ok () → beh.copyResult = .ok () →
      download_file ep fp beh = (some content, .ok ())) ∧
    (∀ e, beh.getResult = .error e →
      download_file ep fp beh = (none, .error ⟨.other, "failed reqwest::get " ++ e⟩)) ∧
    (∀ e, beh.getResult = .ok () → beh.bytesResult = .error e →
      download_file ep fp beh = (none, .error ⟨.other, "failed bytes " ++ e⟩)) ∧
    (∀ e, beh.getResult = .ok () → beh.bytesResult = .ok content →
      beh.createResult = .error e → download_file ep fp beh = (none, .error e)) ∧
    (∀ w e, beh.getResult = .ok () → beh.bytesResult = .ok content →
      beh.createResult = .ok () → beh.copyResult = .error (w, e) →
      download_file ep fp beh = (some w, .error e)) := by
  refine ⟨?_, ?_, ?_, ?_, ?_⟩
  · intro h1 h2 h3 h4
    unfold download_file
    rw [h1, h2, h3, h4]
  · intro e h1
    unfold download_file
    rw [h1]
  · intro e h1 h2
    unfold download_file
    rw [h1, h2]
  · intro e h1 h2 h3
    unfold download_file
    rw [h1, h2, h3]
  · intro w e h1 h2 h3 h4
    unfold download_file
    rw [h1, h2, h3, h4]

/-- Witness for C8: a faithful download, and a copy failure that leaves
the partial file behind. -/
theorem download_file_spec_witness :
    download_file "http://host:9850/f" "/tmp/f" ⟨.ok (), .ok [1, 2], .ok (), .ok ()⟩ =
      (some [1, 2], .ok ()) ∧
    download_file "http://host:9850/f" "/tmp/f"
        ⟨.ok (), .ok [1, 2], .ok (), .error ([1], ⟨.other, "disk full"⟩)⟩ =
      (some [1], .error ⟨.other, "disk full"⟩) :=
  ⟨(download_file_spec "http://host:9850/f" "/tmp/f"
      ⟨.ok (), .ok [1, 2], .ok (), .ok ()⟩ [1, 2]).1 rfl rfl rfl rfl,
   (download_file_spec "http://host:9850/f" "/tmp/f"
      ⟨.ok (), .ok [1, 2], .ok (), .error ([1], ⟨.other, "disk full"⟩)⟩ [1, 2]).2.2.2.2
      [1] ⟨.other, "disk full"⟩ rfl rfl rfl rfl⟩

/-- C10 (counterexample): not every error carries `ErrorKind::Other`.
When the overall timeout elapses in `send_req`, the `?` operator converts
tokio's `Elapsed` through `From<Elapsed> for io::Error`, yielding
`ErrorKind::TimedOut`. -/
theorem send_req_timeout_kind_counterexample :
    (send_req ⟨.get, "http://host:9850/", [], ""⟩ 5 false ⟨6, .error "x"⟩).2 =
      .error ⟨.timedOut, "timed out"⟩ ∧
    ErrorKind.timedOut ≠ ErrorKind.other :=
  ⟨rfl, by decide⟩

/-- C10 (amended): every error returned by `join_uri`, `create_get` and
`create_json_post` has kind `Other`; an error returned by `send_req` or
`read_bytes` has kind `Other` unless the overall send timeout elapsed, in
which case it has kind `TimedOut` (tokio's `Elapsed` conversion). -/
theorem error_kind_classification (url path d : String) (req : Request) (T : Nat)
    (https chk : Bool) (beh : TransportBeh) :
    (∀ e, join_uri url path = .error e → e.kind = .other) ∧
    (∀ e, create_get url path = .error e → e.kind = .other) ∧
    (∀ e, create_json_post url path d = .error e → e.kind = .other) ∧
    (∀ t e, send_req req T https beh = (t, .error e) →
      e.kind = if T < beh.reqTime then ErrorKind.timedOut else .other) ∧
    (∀ t e, read_bytes req T https chk beh = (t, .error e) →
      e.kind = if T < beh.reqTime then ErrorKind.timedOut else .other) := by
  have hju : ∀ e, join_uri url path = .error e → e.kind = .other := by
    intro e h
    unfold join_uri at h
    cases hp : Url.parse url with
    | none =>
      rw [hp] at h
      injection h with h1
      rw [← h1]
    | some u =>
      rw [hp] at h
      dsimp only at h
      by_cases hpe : path.isEmpty = true
      · rw [if_pos hpe] at h; exact Except.noConfusion h
      · rw [if_neg hpe] at h
        cases hj : u.join path with
        | none =>
          rw [hj] at h
          injection h with h1
          rw [← h1]
        | some v => rw [hj] at h; exact Except.noConfusion h
  have hcg : ∀ e, create_get url path = .error e → e.kind = .other := by
    intro e h
    unfold create_get at h
    cases hj : join_uri url path with
    | error e' =>
      rw [hj] at h
      injection h with h1
      exact h1 ▸ hju e' hj
    | ok u => rw [hj] at h; exact Except.noConfusion h
  have hcj : ∀ e, create_json_post url path d = .error e → e.kind = .other := by
    intro e h
    unfold create_json_post at h
    cases hj : join_uri url path with
    | error e' =>
      rw [hj] at h
      injection h with h1
      exact h1 ▸ hju e' hj
    | ok u => rw [hj] at h; exact Except.noConfusion h
  have hsr : ∀ t e, send_req req T https beh = (t, .error e) →
      e.kind = if T < beh.reqTime then ErrorKind.timedOut else .other := by
    intro t e h
    unfold send_req at h
    by_cases ht : beh.reqTime ≤ T
    · rw [if_neg (by omega)]
      rw [if_pos ht] at h
      cases hr : beh.reqResult with
      | ok resp =>
        rw [hr] at h
        dsimp only at h
        injection h with h1 h2
        exact Except.noConfusion h2
      | error e' =>
        rw [hr] at h
        dsimp only at h
        injection h with h1 h2
        injection h2 with h3
        rw [← h3]
    · rw [if_pos (by omega)]
      rw [if_neg ht] at h
      injection h with h1 h2
      injection h2 with h3
      rw [← h3]
  have hrb : ∀ t e, read_bytes req T https chk beh = (t, .error e) →
      e.kind = if T < beh.reqTime then ErrorKind.timedOut else .other := by
    intro t e h
    unfold read_bytes send_req at h
    by_cases ht : beh.reqTime ≤ T
    · rw [if_neg (by omega)]
      rw [if_pos ht] at h
      cases hr : beh.reqResult with
      | error e' =>
        rw [hr] at h
        dsimp only at h
        injection h with h1 h2
        injection h2 with h3
        rw [← h3]
      | ok resp =>
        rw [hr] at h
        dsimp only at h
        by_cases hc : (!is_success resp.status && chk) = true
        · rw [if_pos hc] at h
          injection h with h1 h2
          injection h2 with h3
          rw [← h3]
        · rw [if_neg hc] at h
          by_cases hbt : resp.bodyTime ≤ T
          · rw [if_pos hbt] at h
            cases hbr : resp.bodyResult with
            | ok b =>
              rw [hbr] at h
              dsimp only at h
              injection h with h1 h2
              exact Except.noConfusion h2
            | error e' =>
              rw [hbr] at h
              dsimp only at h
              injection h with h1 h2
              injection h2 with h3
              rw [← h3]
          · rw [if_neg hbt] at h
            injection h with h1 h2
            injection h2 with h3
            rw [← h3]
    · rw [if_pos (by omega)]
      rw [if_neg ht] at h
      dsimp only at h
      injection h with h1 h2
      injection h2 with h3
      rw [← h3]
  exact ⟨hju, hcg, hcj, hsr, hrb⟩

/-- Witness for the amended C10: a parse error with kind `Other` and a
timed-out send with kind `TimedOut`. -/
theorem error_kind_classification_witness :
    (IoError.mk .other "failed to parse client URL").kind = .other ∧
    (IoError.mk .timedOut "timed out").kind =
      if 5 < (TransportBeh.mk 6 (.error "x")).reqTime then ErrorKind.timedOut
      else .other :=
  ⟨(error_kind_classification "ext/X" "p" "d" ⟨.get, "u", [], ""⟩ 5 false true
      ⟨6, .error "x"⟩).1 ⟨.other, "failed to parse client URL"⟩ rfl,
   (error_kind_classification "ext/X" "p" "d" ⟨.get, "u", [], ""⟩ 5 false true
      ⟨6, .error "x"⟩).2.2.2.1 5 ⟨.timedOut, "timed out"⟩ rfl⟩

end HttpMan
